import Mathlib

/-!
Shallow embedding of the mmlt environment-operator planner and step
execution pipeline (Go packages `plan` and `step`), together with proofs
of the behavioural properties of `Planner.NextStep`, plan building,
`InfraStep.Execute` and `DestroyStep.Execute`.

Conventions of the embedding:
* Go `(value, ok bool)` returns become `Option`;
  Go `(value, error)` returns become `Except String` or a dedicated sum.
* Go maps (`status.Steps`, `Planner.currentPlans`) become association
  lists with an explicit lookup function; only lookup and emptiness are
  observed by the embedded code, so iteration-order nondeterminism of Go
  maps is irrelevant except for `stepFilter`, where the embedded list
  order stands in for one admissible iteration order.
* Side effects of `Execute` (file writes via `writeText`/`writeEnv`,
  `infoSink.Info` events, `updateSink.Update` snapshots) are collected
  in an explicit trace.  A Go runtime panic (nil-pointer dereference) is
  a distinguished outcome.
* Machine integers that hold terraform object counts are modelled as
  `Nat` (they are parsed counts, never negative); budget limits
  (`*int32` in Go) are `Option Nat`.
-/

namespace EnvOp

/-- State of a step as persisted in the environment status
(`v1.StepState`: Initial, Running, Ready, Error). -/
inductive StepState where
  | initial
  | running
  | ready
  | error
deriving DecidableEq, Repr

/-- Persisted per-step status entry (`status.Steps[shortName]`): the
fields the planner reads are `State` and `Hash`. -/
structure StepStatus where
  state : StepState
  hash : String
deriving DecidableEq, Repr

/-- Environment status (`v1.EnvironmentStatus`): `Steps` maps a step
short-name to its persisted status; modelled as an association list. -/
structure EnvironmentStatus where
  steps : List (String × StepStatus)
deriving DecidableEq, Repr

/-- Lookup in an association list, mirroring a Go map read. -/
def statusLookup : List (String × StepStatus) → String → Option StepStatus
  | [], _ => none
  | q :: rest, k => if q.1 = k then some q.2 else statusLookup rest k

/-- Namespaced name (`types.NamespacedName`). -/
structure NSN where
  nspace : String
  name : String
deriving DecidableEq, Repr

/-- Workspace handle returned by the Sourcer (`source.Workspace`). -/
structure Workspace where
  path : String
  hash : String
  synced : Bool
deriving DecidableEq, Repr

/-- Sourcer interface: `Workspace(nsn, name) → (Workspace, ok)`. -/
def Sourcer := NSN → String → Option Workspace

/-- Infra budget (`v1.InfraSpec.Budget`): optional caps on planned
object churn; a `none` limit is unbounded. -/
structure BudgetSpec where
  addLimit : Option Nat
  updateLimit : Option Nat
  deleteLimit : Option Nat
deriving DecidableEq, Repr

/-- Azure-specific part of the infra spec (fields read by the plan
builder). -/
structure AZSpec where
  subscription : String
  resourceGroup : String
deriving DecidableEq, Repr

/-- Terraform state-store access part of the infra spec. -/
structure StateSpec where
  access : String
deriving DecidableEq, Repr

/-- Infra spec (`v1.InfraSpec`): the fields read by the plan builder
and the infra/destroy steps. -/
structure InfraSpec where
  main : String
  envName : String
  az : AZSpec
  state : StateSpec
  budget : BudgetSpec
deriving DecidableEq, Repr

/-- Per-cluster infra fragment (`cl.Infra`): the plan builder reads
`Version`. -/
structure ClusterInfraSpec where
  version : String
deriving DecidableEq, Repr

/-- Per-cluster addons fragment (`cl.Addons`): the plan builder reads
`MKV`, `Jobs` and `X`. -/
structure ClusterAddonSpec where
  mkv : String
  jobs : List String
  x : List (String × String)
deriving DecidableEq, Repr

/-- Cluster spec (`v1.ClusterSpec`): fields read by the plan builder. -/
structure ClusterSpec where
  name : String
  infra : ClusterInfraSpec
  addons : ClusterAddonSpec
deriving DecidableEq, Repr

/-- Step type (`step.Type`), a closed set. -/
inductive StepType where
  | infra
  | destroy
  | aksPool
  | kubeconfig
  | aksAddonPreflight
  | addons
deriving DecidableEq, Repr

/-- Modelled from the spec: the printable label of a step type used in
short names (the `step` package's type constants are not under src/). -/
def StepType.label : StepType → String
  | .infra => "Infra"
  | .destroy => "Destroy"
  | .aksPool => "AKSPool"
  | .kubeconfig => "Kubeconfig"
  | .aksAddonPreflight => "AKSAddonPreflight"
  | .addons => "Addons"

/-- Step identity (`step.ID`). -/
structure ID where
  typ : StepType
  nspace : String
  name : String
  clusterName : String
deriving DecidableEq, Repr

/-- Modelled from the spec: `ID.ShortName()` is not under src/; §6.3
gives the format `<type>[.<clusterName>]` with a stable delimiter. -/
def ID.ShortName (id : ID) : String :=
  id.typ.label ++ (if id.clusterName = "" then "" else "." ++ id.clusterName)

/-- Common step metadata (`step.Metaa`). -/
structure Metaa where
  id : ID
  hash : String
  state : StepState
  msg : String
deriving DecidableEq, Repr

/-- Values passed to template expansion (`step.InfraValues`). -/
structure InfraValues where
  infra : InfraSpec
  clusters : List ClusterSpec
deriving DecidableEq, Repr

/-- InfraStep data (`step.InfraStep`): client interfaces (Cloud,
Terraform) are not data and live in the execution world below. -/
structure InfraStep where
  metaa : Metaa
  values : InfraValues
  sourcePath : String
deriving DecidableEq, Repr

/-- DestroyStep data (`step.DestroyStep`). -/
structure DestroyStep where
  metaa : Metaa
  values : InfraValues
  sourcePath : String
deriving DecidableEq, Repr

/-- AKSPoolStep data (`step.AKSPoolStep`): fields set by the plan
builder. -/
structure AKSPoolStep where
  metaa : Metaa
  resourceGroup : String
  cluster : String
  version : String
deriving DecidableEq, Repr

/-- KubeconfigStep data (`step.KubeconfigStep`). -/
structure KubeconfigStep where
  metaa : Metaa
  tfPath : String
  clusterName : String
  kcPath : String
  access : String
deriving DecidableEq, Repr

/-- AKSAddonPreflightStep data (`step.AKSAddonPreflightStep`). -/
structure AKSAddonPreflightStep where
  metaa : Metaa
  kcPath : String
deriving DecidableEq, Repr

/-- AddonStep data (`step.AddonStep`). -/
structure AddonStep where
  metaa : Metaa
  sourcePath : String
  kcPath : String
  masterVaultPath : String
  jobPaths : List String
  values : List (String × String)
deriving DecidableEq, Repr

/-- A step (`step.Step` interface): a closed tagged union of the six
variants. -/
inductive Step where
  | infra (s : InfraStep)
  | destroy (s : DestroyStep)
  | aksPool (s : AKSPoolStep)
  | kubeconfig (s : KubeconfigStep)
  | aksAddonPreflight (s : AKSAddonPreflightStep)
  | addons (s : AddonStep)
deriving DecidableEq, Repr

/-- A step's common metadata (the `Meta()` method of the interface). -/
def Step.Meta : Step → Metaa
  | .infra s => s.metaa
  | .destroy s => s.metaa
  | .aksPool s => s.metaa
  | .kubeconfig s => s.metaa
  | .aksAddonPreflight s => s.metaa
  | .addons s => s.metaa

/-- A plan is an ordered list of steps (`plan.plan`). -/
abbrev Plan := List Step

/-- Heterogeneous values passed to the structural hasher (the
`...interface{}` arguments of `Planner.hash`). -/
inductive HVal where
  | s (v : String)
  | infra (v : InfraSpec)
  | clusterInfras (v : List ClusterInfraSpec)
  | jobs (v : List String)
  | xvals (v : List (String × String))
deriving DecidableEq, Repr

/-- Result of a planner call that returns `(step.Step, error)` in Go:
either a step, `(nil, nil)`, or `(nil, err)`. -/
inductive StepOrErr where
  | step (st : Step)
  | nothing
  | err (msg : String)
deriving DecidableEq, Repr

/-- The planner (`plan.Planner`): the in-memory plan table, the step
allow-list, and the two effectful helpers it consults, made abstract
function parameters.  `hash` stands for `Planner.hash` built on the
external hashstructure library (a deterministic digest of the argument
list; its "hasherror" fallback is folded into the abstract function).
`vaultInfraValues` is modelled from the spec: §4.E.3 secret resolution
(`vaultInfraValues(ispec, p.Cloud)`) is not under src/; it rewrites the
infra spec and its failure propagates out of NextStep. -/
structure Planner where
  currentPlans : List (NSN × Plan)
  AllowedStepTypes : List StepType
  hash : List HVal → String
  vaultInfraValues : InfraSpec → Except String InfraSpec

/-- Lookup in the plan table, mirroring the Go map read. -/
def plansFind : List (NSN × Plan) → NSN → Option Plan
  | [], _ => none
  | q :: rest, nsn => if q.1 = nsn then some q.2 else plansFind rest nsn

/-- Insert or replace an entry of the plan table
(`p.currentPlans[nsn] = pl`). -/
def plansInsert (nsn : NSN) (pl : Plan) : List (NSN × Plan) → List (NSN × Plan)
  | [] => [(nsn, pl)]
  | q :: rest => if q.1 = nsn then (nsn, pl) :: rest else q :: plansInsert nsn pl rest

/-- Modelled from the spec: `Planner.currentPlan`, the accessor for the
in-memory plan table (§5: `Planner.currentPlans: NSN → Plan`), is not
under src/. -/
def Planner.currentPlan (p : Planner) (nsn : NSN) : Option Plan :=
  plansFind p.currentPlans nsn

/-- Find the plan step with the given short name. -/
def stepsFind : Plan → String → Option Step
  | [], _ => none
  | st :: rest, nm => if st.Meta.id.ShortName = nm then some st else stepsFind rest nm

/-- Modelled from the spec: `Planner.currentPlanStep`, is not under
src/; §4.E.2: return the in-memory plan's step whose `ShortName`
matches. -/
def Planner.currentPlanStep (p : Planner) (nsn : NSN) (name : String) : Option Step :=
  match p.currentPlan nsn with
  | none => none
  | some pl => stepsFind pl name

/-- StepFilter returns the names of the status entries whose state
matches (Go `stepFilter`); the list order stands in for one admissible
Go map iteration order. -/
def stepFilterList : List (String × StepStatus) → StepState → List String
  | [], _ => []
  | q :: rest, state =>
    if q.2.state = state then q.1 :: stepFilterList rest state
    else stepFilterList rest state

/-- StepFilter on an environment status. -/
def stepFilter (status : EnvironmentStatus) (state : StepState) : List String :=
  stepFilterList status.steps state

/-- PlanFilter returns the plan restricted to allowed step types; an
empty allow-list means no filtering (Go `planFilter`). -/
def typeAllowed : List StepType → StepType → Bool
  | [], _ => false
  | t :: rest, ty => if t = ty then true else typeAllowed rest ty

/-- PlanFilter itself. -/
def planFilter (pl : Plan) (allowed : List StepType) : Plan :=
  if allowed.isEmpty then pl
  else pl.filter (fun st => typeAllowed allowed st.Meta.id.typ)

/-- Model of Go `filepath.Join` for the clean paths used here: join
with a slash (Join's path cleaning does not matter for these inputs). -/
def joinPath (a b : String) : String :=
  if a = "" then b else if b = "" then a else a ++ "/" ++ b

/-- StepMeta builds the metadata of a freshly planned step (Go
`stepMeta`); a new step starts in the zero state with no message. -/
def stepMeta (nsn : NSN) (clusterName : String) (typ : StepType) (hash : String) : Metaa :=
  { id := { typ := typ, nspace := nsn.nspace, name := nsn.name, clusterName := clusterName }
    hash := hash
    state := .initial
    msg := "" }

/-- PrefixedClusterName returns the cluster name as used in Azure
(Go `prefixedClusterName`).  The Go code takes `env[len(env)-1:]`,
which panics (slice bounds out of range) when `env` is empty; the panic
is modelled as `none`. -/
def prefixedClusterName (resource env name : String) : Option String :=
  if env.isEmpty then none
  else some ((env.drop (env.length - 1)) ++ resource ++ "001" ++ env ++ "-" ++ name)

/-- BuildDestroyPlan builds the single-step plan that deletes a target
environment (Go `buildDestroyPlan`); `none` models `(nil, false)`. -/
def Planner.buildDestroyPlan (p : Planner) (nsn : NSN) (src : Sourcer)
    (ispec : InfraSpec) (cspec : List ClusterSpec) : Option Plan :=
  match src nsn "" with
  | none => none
  | some tfw =>
    if tfw.hash = "" then none
    else
      let tfPath := joinPath tfw.path ispec.main
      let h := p.hash [.s tfw.hash]
      some [Step.destroy
          { metaa := stepMeta nsn "" .destroy h
            values := { infra := ispec, clusters := cspec }
            sourcePath := tfPath }]

/-- The four steps the create plan emits per cluster, in order
(the loop body of Go `buildCreatePlan`); `none` models the early
`(nil, false)` return when a cluster workspace is missing or unhashed.
A Go panic inside `prefixedClusterName` (empty `EnvName`) aborts plan
building and is folded into the failure case. -/
def Planner.clusterSteps (p : Planner) (nsn : NSN) (src : Sourcer) (ispec : InfraSpec)
    (tfwHash tfPath h : String) : List ClusterSpec → Option Plan
  | [] => some []
  | cl :: rest =>
    match src nsn cl.name with
    | none => none
    | some cw =>
      if cw.hash = "" then none
      else
        let kcPath := joinPath cw.path "kubeconfig"
        let mvPath := joinPath cw.path cl.addons.mkv
        match prefixedClusterName "aks" ispec.envName cl.name with
        | none => none
        | some clusterName =>
          match p.clusterSteps nsn src ispec tfwHash tfPath h rest with
          | none => none
          | some more =>
            some ([Step.aksPool
                { metaa := stepMeta nsn cl.name .aksPool
                    (p.hash [.s tfwHash, .s ispec.az.resourceGroup, .s cl.infra.version])
                  resourceGroup := ispec.az.resourceGroup
                  cluster := clusterName
                  version := cl.infra.version },
              Step.kubeconfig
                { metaa := stepMeta nsn cl.name .kubeconfig (p.hash [.s tfwHash])
                  tfPath := tfPath
                  clusterName := cl.name
                  kcPath := kcPath
                  access := ispec.state.access },
              Step.aksAddonPreflight
                { metaa := stepMeta nsn cl.name .aksAddonPreflight h
                  kcPath := kcPath },
              Step.addons
                { metaa := stepMeta nsn cl.name .addons
                    (p.hash [.s cw.hash, .jobs cl.addons.jobs, .xvals cl.addons.x])
                  sourcePath := cw.path
                  kcPath := kcPath
                  masterVaultPath := mvPath
                  jobPaths := cl.addons.jobs
                  values := cl.addons.x }] ++ more)

/-- BuildCreatePlan builds a plan to create or update a target
environment (Go `buildCreatePlan`); `none` models `(nil, false)`. -/
def Planner.buildCreatePlan (p : Planner) (nsn : NSN) (src : Sourcer)
    (ispec : InfraSpec) (cspec : List ClusterSpec) : Option Plan :=
  match src nsn "" with
  | none => none
  | some tfw =>
    if !tfw.synced then none
    else
      let tfPath := joinPath tfw.path ispec.main
      let cspecInfra := cspec.map (fun s => s.infra)
      let h := p.hash [.s tfw.hash, .infra ispec, .clusterInfras cspecInfra]
      match p.clusterSteps nsn src ispec tfw.hash tfPath h cspec with
      | none => none
      | some rest =>
        some (Step.infra
            { metaa := stepMeta nsn "" .infra h
              values := { infra := ispec, clusters := cspec }
              sourcePath := tfPath } :: rest)

/-- BuildPlan builds a plan and stores its filtered form in the plan
table (Go `buildPlan`); returns the Go boolean and the updated
planner state. -/
def Planner.buildPlan (p : Planner) (nsn : NSN) (src : Sourcer) (destroy : Bool)
    (ispec : InfraSpec) (cspec : List ClusterSpec) : Bool × Planner :=
  match (if destroy then p.buildDestroyPlan nsn src ispec cspec
         else p.buildCreatePlan nsn src ispec cspec) with
  | none => (false, p)
  | some pl =>
    (true, { p with currentPlans := plansInsert nsn (planFilter pl p.AllowedStepTypes) p.currentPlans })

/-- The walk of `selectStep` over the current plan (the `for` loop of
Go `selectStep`): first unseen or hash-drifted step wins; an equal hash
skips; a drifted step whose persisted state is Error yields
`(nil, nil)`. -/
def selectStepWalk (status : EnvironmentStatus) : Plan → StepOrErr
  | [] => .nothing
  | st :: rest =>
    match statusLookup status.steps st.Meta.id.ShortName with
    | none => .step st
    | some current =>
      if current.hash = st.Meta.hash then selectStepWalk status rest
      else if current.state = .error then .nothing
      else .step st

/-- SelectStep returns the next step to execute from the current plan
(Go `selectStep`); a missing plan is the `fmt.Errorf` branch
(`%v` of a NamespacedName prints `namespace/name`). -/
def Planner.selectStep (p : Planner) (nsn : NSN) (status : EnvironmentStatus) : StepOrErr :=
  match p.currentPlan nsn with
  | none => .err ("expected plan for: " ++ nsn.nspace ++ "/" ++ nsn.name)
  | some pl => selectStepWalk status pl

/-- The tail of `NextStep` after the error gate and the first
running-step check: secret resolution, plan rebuild, second
running-step check, selection.  `runningFirst` is `running[0]` when the
first check found a running entry but no matching in-memory plan step. -/
def Planner.NextStepRest (p : Planner) (nsn : NSN) (src : Sourcer) (destroy : Bool)
    (ispec : InfraSpec) (cspec : List ClusterSpec) (status : EnvironmentStatus)
    (runningFirst : Option String) : StepOrErr × Planner :=
  match p.vaultInfraValues ispec with
  | .error e => (.err ("vault ref: " ++ e), p)
  | .ok ispec2 =>
    match p.buildPlan nsn src destroy ispec2 cspec with
    | (false, p2) => (.nothing, p2)
    | (true, p2) =>
      match runningFirst with
      | some r0 =>
        match p2.currentPlanStep nsn r0 with
        | some st => (.step st, p2)
        | none => (p2.selectStep nsn status, p2)
      | none => (p2.selectStep nsn status, p2)

/-- NextStep decides what step should be executed next (Go
`Planner.NextStep`): error gate, running fast path, secret resolution,
plan rebuild, second running check, selection. -/
def Planner.NextStep (p : Planner) (nsn : NSN) (src : Sourcer) (destroy : Bool)
    (ispec : InfraSpec) (cspec : List ClusterSpec) (status : EnvironmentStatus) :
    StepOrErr × Planner :=
  if (stepFilter status .error).length > 0 then (.nothing, p)
  else
    match stepFilter status .running with
    | r0 :: _ =>
      match p.currentPlanStep nsn r0 with
      | some st => (.step st, p)
      | none => p.NextStepRest nsn src destroy ispec cspec status (some r0)
    | [] => p.NextStepRest nsn src destroy ispec cspec status none

/-- Result of a synchronous terraform invocation
(`terraform.TFResults`): output text, errors, plan counts. -/
structure TFResult where
  text : String
  errors : List String
  planAdded : Nat
  planChanged : Nat
  planDeleted : Nat
deriving DecidableEq, Repr

/-- A record of the apply/destroy progress channel
(`terraform.TFApplyResult`). -/
structure TFApplyResult where
  object : String
  action : String
  text : String
  errors : List String
  totalAdded : Nat
  totalChanged : Nat
  totalDestroyed : Nat
deriving DecidableEq, Repr

/-- Cloud service principal (`cloud.ServicePrincipal`): the fields read
by `terraformEnviron`. -/
structure ServicePrincipal where
  clientID : String
  clientSecret : String
  tenant : String
deriving DecidableEq, Repr

/-- How an `Execute` run ends: normally with a final step state,
message and boolean return value, or in a Go runtime panic. -/
inductive ExecOutcome where
  | panicked
  | finished (state : StepState) (msg : String) (ret : Bool)
deriving DecidableEq, Repr

/-- Observable trace of one `Execute` run: the outcome, whether the
asynchronous apply/destroy was started, the `(path, content)` pairs
written through `writeText`/`writeEnv`, the `infoSink.Info` lines, and
the `(state, msg)` snapshots sent to `updateSink.Update`
(`infoSink.Warning` lines and log output are not modelled). -/
structure ExecTrace where
  outcome : ExecOutcome
  applyStarted : Bool
  writes : List (String × String)
  infos : List String
  updates : List (StepState × String)
deriving DecidableEq, Repr

/-- Responses of the external world consulted by `InfraStep.Execute`:
template expansion (`some` an error message on failure), cloud login,
`Init`, `Plan`, and `StartApply` (`ok` carries the full drained content
of the progress channel; the process handle's `Wait` error is logged
and ignored by the code, so it is not modelled). -/
structure InfraWorld where
  expandAll : Option String
  login : Except String ServicePrincipal
  initResult : TFResult
  planResult : TFResult
  startApply : Except String (List TFApplyResult)

/-- Responses of the external world consulted by
`DestroyStep.Execute` (no cloud login in the destroy path). -/
structure DestroyWorld where
  expandAll : Option String
  initResult : TFResult
  startDestroy : Except String (List TFApplyResult)

/-- TerraformEnviron returns terraform specific environment variables
(Go `terraformEnviron`); a list in source order stands in for the Go
map. -/
def terraformEnviron (sp : ServicePrincipal) (access : String) : List (String × String) :=
  [("ARM_CLIENT_ID", sp.clientID),
   ("ARM_CLIENT_SECRET", sp.clientSecret),
   ("ARM_TENANT_ID", sp.tenant),
   ("ARM_ACCESS_KEY", access)]

/-- Text written by `writeEnv`: `"export"` followed by ` K=V` pairs
(Go map iteration order is arbitrary; the list order stands in for one
admissible order). -/
def envText (env : List (String × String)) : String :=
  env.foldl (fun s kv => s ++ " " ++ kv.1 ++ "=" ++ kv.2) "export"

/-- The file write performed by Go `writeText(text, dir, name, log)`:
content `text` goes to `dir/log/name`. -/
def writeTextEvent (text dir name : String) : String × String :=
  (joinPath (joinPath dir "log") name, text)

/-- The budget violation message
(`fmt.Sprintf("plan <verb> %d exceeds <verb>Limit %d", n, l)`). -/
def limitBudgetMsg (verb limName : String) (n l : Nat) : String :=
  "plan " ++ verb ++ " " ++ toString n ++ " exceeds " ++ limName ++ " " ++ toString l

/-- Message of the first violated budget limit, if any (the three
sequential checks of Go `InfraStep.Execute`); `none` means the plan is
within budget. -/
def limitMsg (verb limName : String) (n : Nat) (lim : Option Nat) : Option String :=
  match lim with
  | none => none
  | some l => if n > l then some (limitBudgetMsg verb limName n l) else none

/-- BudgetCheck chains the three limit checks in source order. -/
def budgetCheck (b : BudgetSpec) (a c d : Nat) : Option String :=
  match limitMsg "added" "addLimit" a b.addLimit with
  | some m => some m
  | none =>
    match limitMsg "changed" "updateLimit" c b.updateLimit with
    | some m => some m
    | none => limitMsg "deleted" "deleteLimit" d b.deleteLimit

/-- Info lines forwarded while draining the progress channel: one
`"<Object> <Action>"` line per record with a non-empty `Object`. -/
def applyInfos : List TFApplyResult → List String
  | [] => []
  | r :: rest =>
    if r.object = "" then applyInfos rest
    else (r.object ++ " " ++ r.action) :: applyInfos rest

/-- The apply phase of `InfraStep.Execute` (Go lines from `StartApply`
to the end): start the apply, drain the channel remembering the last
record, then `writeText(last.Text, ...)` — which dereferences a nil
pointer (panics) when the channel closed without any record, making the
`last == nil` check just below it dead code. -/
def infraApply (st : InfraStep) (w : InfraWorld) (ws : List (String × String))
    (ups : List (StepState × String)) : ExecTrace :=
  let am := "terraform apply adds=" ++ toString w.planResult.planAdded ++
    " changes=" ++ toString w.planResult.planChanged ++
    " deletes=" ++ toString w.planResult.planDeleted
  let ups2 := ups ++ [(.running, am)]
  match w.startApply with
  | .error e =>
    { outcome := .finished .error ("start terraform apply:" ++ e) false
      applyStarted := true, writes := ws, infos := []
      updates := ups2 ++ [(.error, "start terraform apply:" ++ e)] }
  | .ok records =>
    let infos := applyInfos records
    match records.getLast? with
    | none =>
      -- Go: `writeText(last.Text, ...)` with `last == nil` — runtime panic.
      { outcome := .panicked, applyStarted := true, writes := ws, infos := infos, updates := ups2 }
    | some last =>
      let ws2 := ws ++ [writeTextEvent last.text st.sourcePath "apply.txt"]
      match last.errors with
      | [] =>
        let m := "terraform apply errors=0 added=" ++ toString last.totalAdded ++
          " changed=" ++ toString last.totalChanged ++
          " deleted=" ++ toString last.totalDestroyed
        { outcome := .finished .ready m true
          applyStarted := true, writes := ws2, infos := infos
          updates := ups2 ++ [(.ready, m)] }
      | es =>
        let m := String.intercalate ", " es
        { outcome := .finished .error m false
          applyStarted := true
          writes := ws2 ++ [writeTextEvent m st.sourcePath "apply.err"]
          infos := infos
          updates := ups2 ++ [(.error, m)] }

/-- Execute of the Infra step (Go `InfraStep.Execute`): template
expansion, cloud login, `init`, `plan`, the nothing-to-do early exit,
the budget gate, then the apply phase. -/
def InfraStep.Execute (st : InfraStep) (w : InfraWorld) : ExecTrace :=
  let u0 := [(StepState.running, "terraform init")]
  match w.expandAll with
  | some e =>
    { outcome := .finished .error e false, applyStarted := false
      writes := [], infos := [], updates := u0 ++ [(.error, e)] }
  | none =>
    match w.login with
    | .error e =>
      { outcome := .finished .error e false, applyStarted := false
        writes := [], infos := [], updates := u0 ++ [(.error, e)] }
    | .ok sp =>
      let ws0 := [writeTextEvent (envText (terraformEnviron sp st.values.infra.state.access))
          st.sourcePath "infra.env"]
      let ws1 := ws0 ++ [writeTextEvent w.initResult.text st.sourcePath "init.txt"]
      match w.initResult.errors with
      | e0 :: _ =>
        { outcome := .finished .error ("terraform init " ++ e0) false
          applyStarted := false
          writes := ws1 ++ [writeTextEvent e0 st.sourcePath "init.err"]
          infos := [], updates := u0 ++ [(.error, "terraform init " ++ e0)] }
      | [] =>
        let u1 := u0 ++ [(.running, "terraform plan")]
        let ws2 := ws1 ++ [writeTextEvent w.planResult.text st.sourcePath "plan.txt"]
        match w.planResult.errors with
        | e0 :: _ =>
          { outcome := .finished .error ("terraform plan " ++ e0) false
            applyStarted := false
            writes := ws2 ++ [writeTextEvent e0 st.sourcePath "plan.err"]
            infos := [], updates := u1 ++ [(.error, "terraform plan " ++ e0)] }
        | [] =>
          if w.planResult.planAdded = 0 ∧ w.planResult.planChanged = 0 ∧
              w.planResult.planDeleted = 0 then
            { outcome := .finished .ready "terraform plan: nothing to do" true
              applyStarted := false, writes := ws2, infos := []
              updates := u1 ++ [(.ready, "terraform plan: nothing to do")] }
          else
            match budgetCheck st.values.infra.budget w.planResult.planAdded
                w.planResult.planChanged w.planResult.planDeleted with
            | some m =>
              { outcome := .finished .error m false, applyStarted := false
                writes := ws2, infos := [], updates := u1 ++ [(.error, m)] }
            | none => infraApply st w ws2 u1

/-- Execute of the Destroy step (Go `DestroyStep.Execute`).  Both
`writeText` call sites pass their arguments in swapped order
(`writeText(st.SourcePath, "init.txt", tfr.Text, log)` against the
signature `writeText(text, dir, name, log)`), so the init write puts
the source path into `init.txt/log/<init text>`, and likewise for the
destroy write — which also dereferences `last` before the nil check,
panicking when the channel closed without any record. -/
def DestroyStep.Execute (st : DestroyStep) (w : DestroyWorld) : ExecTrace :=
  let u0 := [(StepState.running, "terraform init")]
  match w.expandAll with
  | some e =>
    { outcome := .finished .error e false, applyStarted := false
      writes := [], infos := [], updates := u0 ++ [(.error, e)] }
  | none =>
    let ws0 := [writeTextEvent st.sourcePath "init.txt" w.initResult.text]
    match w.initResult.errors with
    | e0 :: _ =>
      { outcome := .finished .error ("terraform init " ++ e0) false
        applyStarted := false, writes := ws0, infos := []
        updates := u0 ++ [(.error, "terraform init " ++ e0)] }
    | [] =>
      let u1 := u0 ++ [(.running, "terraform destroy")]
      match w.startDestroy with
      | .error e =>
        { outcome := .finished .error ("start terraform destroy:" ++ e) false
          applyStarted := true, writes := ws0, infos := []
          updates := u1 ++ [(.error, "start terraform destroy:" ++ e)] }
      | .ok records =>
        let u2 := u1 ++ [(.running, "terraform destroy")]
        let infos := applyInfos records
        match records.getLast? with
        | none =>
          -- Go: `writeText(st.SourcePath, "destroy.txt", last.Text, log)` with `last == nil` — runtime panic.
          { outcome := .panicked, applyStarted := true, writes := ws0, infos := infos, updates := u2 }
        | some last =>
          let ws1 := ws0 ++ [writeTextEvent st.sourcePath "destroy.txt" last.text]
          match last.errors with
          | [] =>
            let m := "terraform destroy errors=0 added=" ++ toString last.totalAdded ++
              " changed=" ++ toString last.totalChanged ++
              " deleted=" ++ toString last.totalDestroyed
            { outcome := .finished .ready m true
              applyStarted := true, writes := ws1, infos := infos
              updates := u2 ++ [(.ready, m)] }
          | es =>
            let m := String.intercalate ", " es
            { outcome := .finished .error m false
              applyStarted := true, writes := ws1, infos := infos
              updates := u2 ++ [(.error, m)] }

/-- Spec-side selection walk, written from the spec's words for
comparison with `selectStepWalk`: the first plan step with no persisted
status entry or with a drifted hash; `none` when every step is up to
date. -/
def firstPendingStep (status : EnvironmentStatus) : Plan → Option Step
  | [] => none
  | st :: rest =>
    match statusLookup status.steps st.Meta.id.ShortName with
    | none => some st
    | some current =>
      if current.hash = st.Meta.hash then firstPendingStep status rest
      else some st

/-- Spec-side predicate, written from the spec's words: each plan count
is within its non-nil budget limit (a nil limit is unbounded). -/
def withinBudget (b : BudgetSpec) (a c d : Nat) : Prop :=
  (∀ l, b.addLimit = some l → a ≤ l) ∧
  (∀ l, b.updateLimit = some l → c ≤ l) ∧
  (∀ l, b.deleteLimit = some l → d ≤ l)

/-- Spec-side predicate, written from the spec's words: the apply
succeeded (the channel delivered a last record and it carries no
errors). -/
def applySucceeded (w : InfraWorld) : Prop :=
  ∃ recs last, w.startApply = .ok recs ∧ recs.getLast? = some last ∧ last.errors = []

/-- Whether a trace ended with the step in the Ready state. -/
def ExecTrace.isReady (t : ExecTrace) : Bool :=
  match t.outcome with
  | .finished .ready _ _ => true
  | _ => false

/-- Concrete environment identity used by the witnesses. -/
def nsn0 : NSN := ⟨"default", "env314"⟩

/-- Concrete infra spec with no budget limits. -/
def ispec0 : InfraSpec := ⟨"main.tf", "xyz", ⟨"sub", "rg"⟩, ⟨"acc"⟩, ⟨none, none, none⟩⟩

/-- Concrete infra spec with a delete limit of 2. -/
def ispecB : InfraSpec := { ispec0 with budget := ⟨none, none, some 2⟩ }

/-- Concrete sourcer: infra workspace `("/ws", "abc", synced)`, cluster
workspaces `("/cw", "k1", synced)`. -/
def src0 : Sourcer := fun _ n =>
  if n = "" then some ⟨"/ws", "abc", true⟩ else some ⟨"/cw", "k1", true⟩

/-- Concrete sourcer with no workspaces at all. -/
def srcNone : Sourcer := fun _ _ => none

/-- Concrete planner: empty plan table, no allow-list, constant hasher,
identity secret resolution. -/
def planner0 : Planner := ⟨[], [], fun _ => "h", fun i => .ok i⟩

/-- The create plan `planner0` builds for `nsn0`, `src0`, `ispec0` and
no clusters. -/
def pl0 : Plan := [Step.infra ⟨stepMeta nsn0 "" .infra "h", ⟨ispec0, []⟩, "/ws/main.tf"⟩]

/-- Concrete planner whose table already holds `pl0` for `nsn0`. -/
def plannerWithPlan : Planner := ⟨[(nsn0, pl0)], [], fun _ => "h", fun i => .ok i⟩

/-- Empty persisted status. -/
def statusEmpty : EnvironmentStatus := ⟨[]⟩

/-- Persisted status with one errored step. -/
def statusErr : EnvironmentStatus := ⟨[("Infra", ⟨.error, "h1"⟩)]⟩

/-- Concrete service principal. -/
def sp0 : ServicePrincipal := ⟨"cid", "csec", "ten"⟩

/-- Concrete infra step with no budget limits. -/
def istep0 : InfraStep := ⟨stepMeta nsn0 "" .infra "h", ⟨ispec0, []⟩, "/src"⟩

/-- Concrete infra step whose budget has a delete limit of 2. -/
def istepB : InfraStep := ⟨stepMeta nsn0 "" .infra "h", ⟨ispecB, []⟩, "/src"⟩

/-- Concrete destroy step. -/
def dstep0 : DestroyStep := ⟨stepMeta nsn0 "" .destroy "h", ⟨ispec0, []⟩, "/src"⟩

/-- Concrete successful init result. -/
def tfr0 : TFResult := ⟨"initok", [], 0, 0, 0⟩

/-- World where the plan reports nothing to change. -/
def wNothing : InfraWorld := ⟨none, .ok sp0, tfr0, ⟨"planok", [], 0, 0, 0⟩, .ok []⟩

/-- World where the plan adds one object and the apply streams one
clean record. -/
def wApplyOk : InfraWorld :=
  ⟨none, .ok sp0, tfr0, ⟨"planok", [], 1, 0, 0⟩, .ok [⟨"obj", "created", "applied", [], 1, 0, 0⟩]⟩

/-- World where the apply channel closes without delivering a record. -/
def wPanic : InfraWorld := ⟨none, .ok sp0, tfr0, ⟨"planok", [], 1, 0, 0⟩, .ok []⟩

/-- World where the plan deletes five objects. -/
def wDel5 : InfraWorld := ⟨none, .ok sp0, tfr0, ⟨"planok", [], 0, 0, 5⟩, .ok []⟩

/-- Destroy world where the destroy channel closes without a record. -/
def dwPanic : DestroyWorld := ⟨none, tfr0, .ok []⟩

/-- Destroy world with distinctive init and destroy texts. -/
def dwSwap : DestroyWorld := ⟨none, ⟨"INITOUT", [], 0, 0, 0⟩, .ok [⟨"", "", "DESTROYOUT", [], 0, 0, 1⟩]⟩

/-! Helper lemmas about the planner embedding. -/

/-- A status entry in state `s` makes `stepFilterList` non-empty. -/
theorem stepFilterList_ne_nil {l : List (String × StepStatus)} {q : String × StepStatus}
    {s : StepState} (hm : q ∈ l) (hs : q.2.state = s) : stepFilterList l s ≠ [] := by
  induction l with
  | nil => cases hm
  | cons hd tl ih =>
    cases hm with
    | head => simp [stepFilterList, hs]
    | tail _ hm =>
      by_cases h : hd.2.state = s
      · simp [stepFilterList, h]
      · simpa [stepFilterList, h] using ih hm

/-- If `stepFilterList` is empty for `s`, no lookup result is in state
`s`. -/
theorem statusLookup_state_ne {l : List (String × StepStatus)} {s : StepState}
    (hf : stepFilterList l s = []) {k : String} {st : StepStatus}
    (hl : statusLookup l k = some st) : st.state ≠ s := by
  induction l with
  | nil => simp [statusLookup] at hl
  | cons hd tl ih =>
    by_cases hhd : hd.2.state = s
    · simp [stepFilterList, hhd] at hf
    · rw [statusLookup] at hl
      by_cases hk : hd.1 = k
      · rw [if_pos hk] at hl
        injection hl with h
        subst h
        exact hhd
      · rw [if_neg hk] at hl
        have hf' : stepFilterList tl s = [] := by
          simpa [stepFilterList, hhd] using hf
        exact ih hf' hl

/-- Looking up the key just inserted returns the inserted plan. -/
theorem plansFind_insert (m : List (NSN × Plan)) (nsn : NSN) (pl : Plan) :
    plansFind (plansInsert nsn pl m) nsn = some pl := by
  induction m with
  | nil => simp [plansInsert, plansFind]
  | cons hd tl ih =>
    by_cases h : hd.1 = nsn
    · simp [plansInsert, h, plansFind]
    · simp [plansInsert, h, plansFind, ih]

/-- The selection walk never produces the error constructor. -/
theorem selectStepWalk_ne_err (status : EnvironmentStatus) (msg : String) :
    ∀ pl : Plan, selectStepWalk status pl ≠ .err msg := by
  intro pl
  induction pl with
  | nil => simp [selectStepWalk]
  | cons st rest ih =>
    rw [selectStepWalk]
    cases h : statusLookup status.steps st.Meta.id.ShortName with
    | none => simp
    | some current =>
      by_cases h1 : current.hash = st.Meta.hash
      · simpa [h1] using ih
      · by_cases h2 : current.state = .error <;> simp [h1, h2]

/-- When no persisted entry is in the Error state, the selection walk
agrees with the branch-free spec walk `firstPendingStep`: the
error-state branch of `selectStep` cannot fire. -/
theorem selectStepWalk_eq_firstPending (status : EnvironmentStatus)
    (h : ∀ k st, statusLookup status.steps k = some st → st.state ≠ .error) :
    ∀ pl : Plan, selectStepWalk status pl =
      (match firstPendingStep status pl with
       | some st => StepOrErr.step st
       | none => StepOrErr.nothing) := by
  intro pl
  induction pl with
  | nil => simp [selectStepWalk, firstPendingStep]
  | cons st rest ih =>
    rw [selectStepWalk, firstPendingStep]
    cases hl : statusLookup status.steps st.Meta.id.ShortName with
    | none => simp
    | some current =>
      by_cases h1 : current.hash = st.Meta.hash
      · simpa [h1] using ih
      · have hne := h _ _ hl
        simp [h1, hne]

/-- SelectStep never produces the error constructor when a plan for the
environment is in the table. -/
theorem selectStep_ne_err (p : Planner) (nsn : NSN) (status : EnvironmentStatus) (pl : Plan)
    (hpl : p.currentPlan nsn = some pl) (msg : String) :
    p.selectStep nsn status ≠ .err msg := by
  rw [Planner.selectStep, hpl]
  exact selectStepWalk_ne_err status msg pl

/-- A successful `buildPlan` leaves a plan for the environment in the
table. -/
theorem buildPlan_currentPlan (p : Planner) (nsn : NSN) (src : Sourcer) (destroy : Bool)
    (ispec : InfraSpec) (cspec : List ClusterSpec)
    (h : (p.buildPlan nsn src destroy ispec cspec).1 = true) :
    ∃ pl, ((p.buildPlan nsn src destroy ispec cspec).2).currentPlan nsn = some pl := by
  rw [Planner.buildPlan] at h ⊢
  cases hb : (if destroy then p.buildDestroyPlan nsn src ispec cspec
              else p.buildCreatePlan nsn src ispec cspec) with
  | none => rw [hb] at h; simp at h
  | some pl =>
    exact ⟨planFilter pl p.AllowedStepTypes, by simp [Planner.currentPlan, plansFind_insert]⟩

/-- The single-limit check passes exactly when a non-nil limit is
respected. -/
theorem limitMsg_none_iff (verb limName : String) (n : Nat) (lim : Option Nat) :
    limitMsg verb limName n lim = none ↔ ∀ l, lim = some l → n ≤ l := by
  cases lim with
  | none => simp [limitMsg]
  | some l =>
    by_cases hgt : n > l
    · simp [limitMsg, hgt]
    · simp [limitMsg, hgt]
      omega

/-- Inversion of a failing single-limit check. -/
theorem limitMsg_some_iff (verb limName : String) (n : Nat) (lim : Option Nat) (m : String) :
    limitMsg verb limName n lim = some m ↔
      ∃ l, lim = some l ∧ n > l ∧ m = limitBudgetMsg verb limName n l := by
  cases lim with
  | none => simp [limitMsg]
  | some l =>
    by_cases hgt : n > l <;> simp [limitMsg, hgt, eq_comm]

/-- BudgetCheck passes exactly when every count is within its non-nil
limit. -/
theorem budgetCheck_none_iff (b : BudgetSpec) (a c d : Nat) :
    budgetCheck b a c d = none ↔ withinBudget b a c d := by
  constructor
  · intro h
    rw [budgetCheck] at h
    cases hA : limitMsg "added" "addLimit" a b.addLimit with
    | some m1 => rw [hA] at h; exact Option.noConfusion h
    | none =>
      rw [hA] at h
      cases hU : limitMsg "changed" "updateLimit" c b.updateLimit with
      | some m1 => rw [hU] at h; exact Option.noConfusion h
      | none =>
        rw [hU] at h
        exact ⟨(limitMsg_none_iff _ _ _ _).mp hA, (limitMsg_none_iff _ _ _ _).mp hU,
          (limitMsg_none_iff _ _ _ _).mp h⟩
  · rintro ⟨hA, hU, hD⟩
    rw [budgetCheck, (limitMsg_none_iff _ _ _ _).mpr hA, (limitMsg_none_iff _ _ _ _).mpr hU,
      (limitMsg_none_iff _ _ _ _).mpr hD]

/-- A failing `budgetCheck` reports the first violated limit with the
message shape of the source. -/
theorem budgetCheck_some_form (b : BudgetSpec) (a c d : Nat) (m : String)
    (h : budgetCheck b a c d = some m) :
    (∃ l, b.addLimit = some l ∧ a > l ∧ m = limitBudgetMsg "added" "addLimit" a l) ∨
    (∃ l, b.updateLimit = some l ∧ c > l ∧ m = limitBudgetMsg "changed" "updateLimit" c l) ∨
    (∃ l, b.deleteLimit = some l ∧ d > l ∧ m = limitBudgetMsg "deleted" "deleteLimit" d l) := by
  rw [budgetCheck] at h
  cases hA : limitMsg "added" "addLimit" a b.addLimit with
  | some m1 =>
    rw [hA] at h
    injection h with h
    subst h
    exact Or.inl ((limitMsg_some_iff _ _ _ _ _).mp hA)
  | none =>
    rw [hA] at h
    cases hU : limitMsg "changed" "updateLimit" c b.updateLimit with
    | some m1 =>
      rw [hU] at h
      injection h with h
      subst h
      exact Or.inr (Or.inl ((limitMsg_some_iff _ _ _ _ _).mp hU))
    | none =>
      rw [hU] at h
      exact Or.inr (Or.inr ((limitMsg_some_iff _ _ _ _ _).mp h))

/-- A violated limit makes `budgetCheck` fail. -/
theorem budgetCheck_isSome_of_violation (b : BudgetSpec) (a c d : Nat)
    (h : (∃ l, b.addLimit = some l ∧ a > l) ∨
         (∃ l, b.updateLimit = some l ∧ c > l) ∨
         (∃ l, b.deleteLimit = some l ∧ d > l)) :
    ∃ m, budgetCheck b a c d = some m := by
  cases hb : budgetCheck b a c d with
  | some m => exact ⟨m, rfl⟩
  | none =>
    obtain ⟨hA, hU, hD⟩ := (budgetCheck_none_iff b a c d).mp hb
    rcases h with ⟨l, hl, hgt⟩ | ⟨l, hl, hgt⟩ | ⟨l, hl, hgt⟩
    · exact absurd (hA l hl) (by omega)
    · exact absurd (hU l hl) (by omega)
    · exact absurd (hD l hl) (by omega)

/-! Claim theorems. -/

/-- C1: for every environment status in which at least one entry of
`status.Steps` has `State == Error`, `NextStep` returns `(nil, nil)`
(and leaves the planner untouched), regardless of the plan table, the
destroy flag, the specs, the sourcer, or hash drift in any other
step. -/
theorem C1_nextStep_error_gate (p : Planner) (nsn : NSN) (src : Sourcer) (destroy : Bool)
    (ispec : InfraSpec) (cspec : List ClusterSpec) (status : EnvironmentStatus)
    (h : ∃ q ∈ status.steps, q.2.state = StepState.error) :
    p.NextStep nsn src destroy ispec cspec status = (.nothing, p) := by
  obtain ⟨q, hq, hs⟩ := h
  have hne : stepFilter status .error ≠ [] := stepFilterList_ne_nil hq hs
  have hpos : (stepFilter status .error).length > 0 := List.length_pos.mpr hne
  simp [Planner.NextStep, hpos]

/-- C1 witness: a status with one errored step makes `NextStep` return
`(nil, nil)`. -/
theorem C1_witness :
    planner0.NextStep nsn0 src0 false ispec0 [] statusErr = (.nothing, planner0) :=
  C1_nextStep_error_gate planner0 nsn0 src0 false ispec0 [] statusErr
    ⟨("Infra", ⟨.error, "h1"⟩), by simp [statusErr], rfl⟩

/-- C2: for a status with no Error and no Running entry (and with no
step-type allow-list configured), `NextStep` returns exactly what the
spec-side walk `firstPendingStep` picks from the freshly built create
plan: the first step with no persisted entry or with a drifted hash;
steps whose hash matches are skipped and an exhausted walk yields
`(nil, nil)`. -/
theorem C2_nextStep_first_pending (p : Planner) (nsn : NSN) (src : Sourcer)
    (ispec ispec2 : InfraSpec) (cspec : List ClusterSpec) (status : EnvironmentStatus) (pl : Plan)
    (hErr : stepFilter status .error = [])
    (hRun : stepFilter status .running = [])
    (hVault : p.vaultInfraValues ispec = .ok ispec2)
    (hAllow : p.AllowedStepTypes = [])
    (hBuild : p.buildCreatePlan nsn src ispec2 cspec = some pl) :
    (p.NextStep nsn src false ispec cspec status).1 =
      (match firstPendingStep status pl with
       | some st => StepOrErr.step st
       | none => StepOrErr.nothing) := by
  have hwalk := selectStepWalk_eq_firstPending status
    (fun _ _ hl => statusLookup_state_ne hErr hl) pl
  have hbp : p.buildPlan nsn src false ispec2 cspec =
      (true, { p with currentPlans := plansInsert nsn pl p.currentPlans }) := by
    simp [Planner.buildPlan, hBuild, planFilter, hAllow]
  simp [Planner.NextStep, hErr, hRun, Planner.NextStepRest, hVault, hbp,
    Planner.selectStep, Planner.currentPlan, plansFind_insert, hwalk]

/-- C2 witness: on a fresh status the first plan step (the infra step)
is returned. -/
theorem C2_witness :
    (planner0.NextStep nsn0 src0 false ispec0 [] statusEmpty).1 =
      (match firstPendingStep statusEmpty pl0 with
       | some st => StepOrErr.step st
       | none => StepOrErr.nothing) :=
  C2_nextStep_first_pending planner0 nsn0 src0 ispec0 ispec0 [] statusEmpty pl0
    rfl rfl rfl rfl rfl

/-- C7: the destroy plan is exactly one `DestroyStep` carrying
`hash(tfw.Hash)` when the infra workspace is available with a non-empty
hash; when the workspace is missing or unhashed, plan building reports
not ready and `NextStep` (with destroy set, resolvable secrets and no
running entry) returns `(nil, nil)`. -/
theorem C7_destroy_plan :
    (∀ (p : Planner) (nsn : NSN) (src : Sourcer) (ispec : InfraSpec)
        (cspec : List ClusterSpec) (tfw : Workspace),
      src nsn "" = some tfw → tfw.hash ≠ "" →
      p.buildDestroyPlan nsn src ispec cspec =
        some [Step.destroy
          { metaa := stepMeta nsn "" .destroy (p.hash [.s tfw.hash])
            values := { infra := ispec, clusters := cspec }
            sourcePath := joinPath tfw.path ispec.main }]) ∧
    (∀ (p : Planner) (nsn : NSN) (src : Sourcer) (ispec ispec2 : InfraSpec)
        (cspec : List ClusterSpec) (status : EnvironmentStatus),
      p.vaultInfraValues ispec = .ok ispec2 →
      stepFilter status .running = [] →
      (src nsn "" = none ∨ ∃ tfw, src nsn "" = some tfw ∧ tfw.hash = "") →
      p.buildDestroyPlan nsn src ispec2 cspec = none ∧
      p.NextStep nsn src true ispec cspec status = (.nothing, p)) := by
  constructor
  · intro p nsn src ispec cspec tfw h1 h2
    simp [Planner.buildDestroyPlan, h1, h2]
  · intro p nsn src ispec ispec2 cspec status hVault hRun hW
    have hbd : p.buildDestroyPlan nsn src ispec2 cspec = none := by
      rcases hW with h | ⟨tfw, heq, hh⟩
      · simp [Planner.buildDestroyPlan, h]
      · simp [Planner.buildDestroyPlan, heq, hh]
    refine ⟨hbd, ?_⟩
    by_cases hg : (stepFilter status .error).length > 0
    · simp [Planner.NextStep, hg]
    · simp [Planner.NextStep, hg, hRun, Planner.NextStepRest, hVault, Planner.buildPlan, hbd]

/-- C7 witness: a workspace with hash `"abc"` yields the one-step
destroy plan; a missing workspace makes `NextStep` return
`(nil, nil)`. -/
theorem C7_witness :
    planner0.buildDestroyPlan nsn0 src0 ispec0 [] =
      some [Step.destroy
        { metaa := stepMeta nsn0 "" .destroy (planner0.hash [.s "abc"])
          values := { infra := ispec0, clusters := [] }
          sourcePath := joinPath "/ws" ispec0.main }] ∧
    planner0.NextStep nsn0 srcNone true ispec0 [] statusEmpty = (.nothing, planner0) :=
  ⟨C7_destroy_plan.1 planner0 nsn0 src0 ispec0 [] ⟨"/ws", "abc", true⟩ rfl (by decide),
   (C7_destroy_plan.2 planner0 nsn0 srcNone ispec0 ispec0 [] statusEmpty rfl rfl (Or.inl rfl)).2⟩

/-- C9: when no status entry is in the Error state — exactly the
condition the error gate of `NextStep` has established whenever it
reaches `selectStep` — `selectStep` on a present plan coincides with
the branch-free walk `firstPendingStep` (its error-state branch cannot
fire) and, consequently, `NextStep` with resolvable secrets never
returns an error: selection ends in a step or in `(nil, nil)`. -/
theorem C9_selectStep_no_error_branch (p : Planner) (nsn : NSN) (status : EnvironmentStatus)
    (hErr : stepFilter status .error = []) :
    (∀ pl, p.currentPlan nsn = some pl →
      p.selectStep nsn status =
        (match firstPendingStep status pl with
         | some st => StepOrErr.step st
         | none => StepOrErr.nothing)) ∧
    (∀ (src : Sourcer) (destroy : Bool) (ispec ispec2 : InfraSpec)
        (cspec : List ClusterSpec) (msg : String),
      p.vaultInfraValues ispec = .ok ispec2 →
      (p.NextStep nsn src destroy ispec cspec status).1 ≠ .err msg) := by
  constructor
  · intro pl hpl
    rw [Planner.selectStep, hpl]
    exact selectStepWalk_eq_firstPending status
      (fun _ _ hl => statusLookup_state_ne hErr hl) pl
  · intro src destroy ispec ispec2 cspec msg hVault
    have hrest : ∀ rf, (p.NextStepRest nsn src destroy ispec cspec status rf).1 ≠ .err msg := by
      intro rf
      simp only [Planner.NextStepRest, hVault]
      rcases hbp : p.buildPlan nsn src destroy ispec2 cspec with ⟨b, p2⟩
      cases b with
      | false => simp
      | true =>
        obtain ⟨pl2, hpl2⟩ := buildPlan_currentPlan p nsn src destroy ispec2 cspec
          (by rw [hbp])
        rw [hbp] at hpl2
        cases rf with
        | none => simpa using selectStep_ne_err p2 nsn status pl2 hpl2 msg
        | some r0 =>
          cases hcur : p2.currentPlanStep nsn r0 with
          | some st => simp [hcur]
          | none => simpa [hcur] using selectStep_ne_err p2 nsn status pl2 hpl2 msg
    rw [Planner.NextStep]
    rw [if_neg (by simp [hErr])]
    cases hr : stepFilter status .running with
    | nil => exact hrest none
    | cons r0 rs =>
      cases hcur : p.currentPlanStep nsn r0 with
      | some st => simp [hcur]
      | none => simpa [hcur] using hrest (some r0)

/-- C9 witness: with an in-memory plan and a clean status, `selectStep`
agrees with the branch-free walk and `NextStep` does not error. -/
theorem C9_witness :
    plannerWithPlan.selectStep nsn0 statusEmpty =
      (match firstPendingStep statusEmpty pl0 with
       | some st => StepOrErr.step st
       | none => StepOrErr.nothing) ∧
    (plannerWithPlan.NextStep nsn0 src0 false ispec0 [] statusEmpty).1 ≠ .err "boom" :=
  ⟨(C9_selectStep_no_error_branch plannerWithPlan nsn0 statusEmpty rfl).1 pl0 rfl,
   (C9_selectStep_no_error_branch plannerWithPlan nsn0 statusEmpty rfl).2
     src0 false ispec0 ispec0 [] "boom" rfl⟩

/-- C3 counterexample: the claim "the step reaches Ready iff
`a+c+d > 0`, each count within its non-nil limit, and the apply
succeeded" is false at a plan reporting `(0, 0, 0)`: the step reaches
Ready through the nothing-to-do branch although `a+c+d > 0` fails. -/
theorem C3_ready_iff_counterexample :
    ¬ (((istep0.Execute wNothing).isReady = true) ↔
       (0 + 0 + 0 > 0 ∧ withinBudget istep0.values.infra.budget 0 0 0 ∧
        applySucceeded wNothing)) := by
  intro h
  have hready : (istep0.Execute wNothing).isReady = true := by decide
  exact absurd (h.mp hready).1 (by decide)

/-- C3 (amended): for an execution that reaches a successful terraform
plan with counts `(a, c, d)`, the Infra step reaches Ready iff either
`a + c + d = 0` (nothing to do), or `a + c + d > 0`, every count is
within its non-nil budget limit, and the apply succeeded. -/
theorem C3_ready_iff (st : InfraStep) (w : InfraWorld) (sp : ServicePrincipal)
    (hexp : w.expandAll = none) (hlog : w.login = .ok sp)
    (hinit : w.initResult.errors = []) (hplan : w.planResult.errors = []) :
    (st.Execute w).isReady = true ↔
      (w.planResult.planAdded + w.planResult.planChanged + w.planResult.planDeleted = 0 ∨
       (w.planResult.planAdded + w.planResult.planChanged + w.planResult.planDeleted > 0 ∧
        withinBudget st.values.infra.budget w.planResult.planAdded w.planResult.planChanged
          w.planResult.planDeleted ∧
        applySucceeded w)) := by
  simp only [InfraStep.Execute, hexp, hlog, hinit, hplan]
  by_cases h0 : w.planResult.planAdded = 0 ∧ w.planResult.planChanged = 0 ∧
      w.planResult.planDeleted = 0
  · rw [if_pos h0]
    obtain ⟨h1, h2, h3⟩ := h0
    simp [ExecTrace.isReady, h1, h2, h3]
  · rw [if_neg h0]
    have hsum : w.planResult.planAdded + w.planResult.planChanged +
        w.planResult.planDeleted > 0 := by omega
    have hsum' : ¬ (w.planResult.planAdded + w.planResult.planChanged +
        w.planResult.planDeleted = 0) := by omega
    cases hb : budgetCheck st.values.infra.budget w.planResult.planAdded
        w.planResult.planChanged w.planResult.planDeleted with
    | some m =>
      have hnw : ¬ withinBudget st.values.infra.budget w.planResult.planAdded
          w.planResult.planChanged w.planResult.planDeleted := by
        intro hw
        rw [← budgetCheck_none_iff] at hw
        rw [hb] at hw
        exact Option.noConfusion hw
      simp [ExecTrace.isReady, hsum', hnw]
    | none =>
      have hw : withinBudget st.values.infra.budget w.planResult.planAdded
          w.planResult.planChanged w.planResult.planDeleted :=
        (budgetCheck_none_iff _ _ _ _).mp hb
      rw [infraApply]
      cases hsa : w.startApply with
      | error e =>
        simp [ExecTrace.isReady, hsum', applySucceeded, hsa]
      | ok recs =>
        cases hlast : recs.getLast? with
        | none =>
          simp [ExecTrace.isReady, hsum', applySucceeded, hsa, hlast]
        | some last =>
          cases herr : last.errors with
          | nil =>
            simp only [ExecTrace.isReady]
            simp [hsum, hw, applySucceeded, hsa, hlast, herr]
          | cons e es =>
            have hnap : ¬ applySucceeded w := by
              rintro ⟨recs2, last2, heq, hg, he⟩
              rw [hsa] at heq
              injection heq with heq
              subst heq
              rw [hlast] at hg
              injection hg with hg
              subst hg
              rw [herr] at he
              exact List.noConfusion he
            simp [ExecTrace.isReady, hsum', hnap, hlast, herr]

/-- C3 witness for the amended claim: a plan adding one object with a
clean streamed apply record reaches Ready and satisfies the amended
right-hand side. -/
theorem C3_witness :
    (istep0.Execute wApplyOk).isReady = true ↔
      (wApplyOk.planResult.planAdded + wApplyOk.planResult.planChanged +
        wApplyOk.planResult.planDeleted = 0 ∨
       (wApplyOk.planResult.planAdded + wApplyOk.planResult.planChanged +
        wApplyOk.planResult.planDeleted > 0 ∧
        withinBudget istep0.values.infra.budget wApplyOk.planResult.planAdded
          wApplyOk.planResult.planChanged wApplyOk.planResult.planDeleted ∧
        applySucceeded wApplyOk)) :=
  C3_ready_iff istep0 wApplyOk sp0 rfl rfl rfl rfl

/-- C4: the claim says a progress channel that closes without any
record ends the step in `State == Error` with the sentinel message; the
code instead dereferences the nil `last` pointer (in
`writeText(last.Text, ...)`, placed before the `last == nil` check) and
panics, for the Infra apply and the Destroy path alike. -/
theorem C4_no_progress_panics :
    (istep0.Execute wPanic).outcome = .panicked ∧
    (dstep0.Execute dwPanic).outcome = .panicked := by
  constructor <;> decide

/-- C5: when some plan count exceeds its non-nil budget limit, Execute
ends with `State = Error` carrying the message of the first violated
limit (of the exact source shape), returns false, and never starts the
apply. -/
theorem C5_budget_violation (st : InfraStep) (w : InfraWorld) (sp : ServicePrincipal)
    (hexp : w.expandAll = none) (hlog : w.login = .ok sp)
    (hinit : w.initResult.errors = []) (hplan : w.planResult.errors = [])
    (hvio : (∃ l, st.values.infra.budget.addLimit = some l ∧ w.planResult.planAdded > l) ∨
            (∃ l, st.values.infra.budget.updateLimit = some l ∧ w.planResult.planChanged > l) ∨
            (∃ l, st.values.infra.budget.deleteLimit = some l ∧ w.planResult.planDeleted > l)) :
    ∃ m, budgetCheck st.values.infra.budget w.planResult.planAdded w.planResult.planChanged
        w.planResult.planDeleted = some m ∧
      (st.Execute w).outcome = .finished .error m false ∧
      (st.Execute w).applyStarted = false ∧
      ((∃ l, st.values.infra.budget.addLimit = some l ∧ w.planResult.planAdded > l ∧
          m = limitBudgetMsg "added" "addLimit" w.planResult.planAdded l) ∨
       (∃ l, st.values.infra.budget.updateLimit = some l ∧ w.planResult.planChanged > l ∧
          m = limitBudgetMsg "changed" "updateLimit" w.planResult.planChanged l) ∨
       (∃ l, st.values.infra.budget.deleteLimit = some l ∧ w.planResult.planDeleted > l ∧
          m = limitBudgetMsg "deleted" "deleteLimit" w.planResult.planDeleted l)) := by
  obtain ⟨m, hm⟩ := budgetCheck_isSome_of_violation _ _ _ _ hvio
  have h0 : ¬ (w.planResult.planAdded = 0 ∧ w.planResult.planChanged = 0 ∧
      w.planResult.planDeleted = 0) := by
    rcases hvio with ⟨l, _, hgt⟩ | ⟨l, _, hgt⟩ | ⟨l, _, hgt⟩ <;> omega
  refine ⟨m, hm, ?_, ?_, budgetCheck_some_form _ _ _ _ _ hm⟩ <;>
    simp [InfraStep.Execute, hexp, hlog, hinit, hplan, h0, hm]

/-- C5 witness: `deleteLimit = 2` against `planDeleted = 5` trips the
budget with the message `"plan deleted 5 exceeds deleteLimit 2"`. -/
theorem C5_witness :
    ∃ m, budgetCheck istepB.values.infra.budget wDel5.planResult.planAdded
        wDel5.planResult.planChanged wDel5.planResult.planDeleted = some m ∧
      (istepB.Execute wDel5).outcome = .finished .error m false ∧
      (istepB.Execute wDel5).applyStarted = false ∧
      ((∃ l, istepB.values.infra.budget.addLimit = some l ∧ wDel5.planResult.planAdded > l ∧
          m = limitBudgetMsg "added" "addLimit" wDel5.planResult.planAdded l) ∨
       (∃ l, istepB.values.infra.budget.updateLimit = some l ∧ wDel5.planResult.planChanged > l ∧
          m = limitBudgetMsg "changed" "updateLimit" wDel5.planResult.planChanged l) ∨
       (∃ l, istepB.values.infra.budget.deleteLimit = some l ∧ wDel5.planResult.planDeleted > l ∧
          m = limitBudgetMsg "deleted" "deleteLimit" wDel5.planResult.planDeleted l)) :=
  C5_budget_violation istepB wDel5 sp0 rfl rfl rfl rfl
    (Or.inr (Or.inr ⟨2, rfl, by decide⟩))

/-- C6: a successful plan with all three counts zero ends the Infra
step Ready with `Msg = "terraform plan: nothing to do"`, returning true
and never starting the apply. -/
theorem C6_nothing_to_do (st : InfraStep) (w : InfraWorld) (sp : ServicePrincipal)
    (hexp : w.expandAll = none) (hlog : w.login = .ok sp)
    (hinit : w.initResult.errors = []) (hplan : w.planResult.errors = [])
    (ha : w.planResult.planAdded = 0) (hc : w.planResult.planChanged = 0)
    (hd : w.planResult.planDeleted = 0) :
    (st.Execute w).outcome = .finished .ready "terraform plan: nothing to do" true ∧
    (st.Execute w).applyStarted = false := by
  constructor <;> simp [InfraStep.Execute, hexp, hlog, hinit, hplan, ha, hc, hd]

/-- C6 witness: a `(0, 0, 0)` plan at concrete inputs. -/
theorem C6_witness :
    (istep0.Execute wNothing).outcome = .finished .ready "terraform plan: nothing to do" true ∧
    (istep0.Execute wNothing).applyStarted = false :=
  C6_nothing_to_do istep0 wNothing sp0 rfl rfl rfl rfl rfl rfl rfl

/-- C8: the claim says the Destroy step persists init stdout to
`SourcePath/log/init.txt` and the last destroy record to
`SourcePath/log/destroy.txt` with the Infra step's convention; the code
passes the `writeText` arguments in swapped order, so it writes the
source path string to `init.txt/log/<init stdout>` and to
`destroy.txt/log/<record text>` instead. -/
theorem C8_writeText_swapped :
    (dstep0.Execute dwSwap).writes =
      [("init.txt/log/INITOUT", "/src"), ("destroy.txt/log/DESTROYOUT", "/src")] ∧
    ("/src/log/init.txt", "INITOUT") ∉ (dstep0.Execute dwSwap).writes ∧
    ("/src/log/destroy.txt", "DESTROYOUT") ∉ (dstep0.Execute dwSwap).writes := by
  refine ⟨?_, ?_, ?_⟩ <;> decide

/-- Dropping all but one element of a non-empty list leaves exactly its
last element (stated with `getLastD`, whose default is irrelevant for
non-empty lists). -/
theorem drop_length_sub_one_eq_getLastD {α : Type} :
    ∀ (l : List α) (d : α), l ≠ [] → l.drop (l.length - 1) = [l.getLastD d]
  | [], _, h => absurd rfl h
  | [x], _, _ => rfl
  | x :: y :: t, d, _ => by
    have ih := drop_length_sub_one_eq_getLastD (y :: t) x (by simp)
    simpa [List.getLastD] using ih

/-- C10: `prefixedClusterName` panics on an empty environment name
(Go slices `env[len(env)-1:]` out of range, modelled as `none`) and,
for non-empty `env`, returns
`last(env) + resource + "001" + env + "-" + name`. -/
theorem C10_prefixedClusterName :
    (∀ r n, prefixedClusterName r "" n = none) ∧
    (∀ r env n, env ≠ "" →
      prefixedClusterName r env n =
        some (String.mk [env.data.getLastD 'A'] ++ r ++ "001" ++ env ++ "-" ++ n)) := by
  constructor
  · intro r n
    rfl
  · intro r env n h
    have he : ¬ (env.isEmpty = true) := by
      simp [String.isEmpty_iff, h]
    have hdata : env.data ≠ [] := by
      intro hd
      apply h
      cases env with
      | mk l =>
        simp only at hd
        subst hd
        rfl
    rw [prefixedClusterName, if_neg he, String.drop_eq]
    show some (String.mk (env.data.drop (env.data.length - 1)) ++ r ++ "001" ++ env ++ "-" ++ n) = _
    rw [drop_length_sub_one_eq_getLastD env.data 'A' hdata]

/-- C10 witness: the empty environment name hits the panic case; for
`env = "xyz"` the derived name is `"zaks001xyz-c"`. -/
theorem C10_witness :
    prefixedClusterName "aks" "" "c" = none ∧
    prefixedClusterName "aks" "xyz" "c" = some "zaks001xyz-c" :=
  ⟨C10_prefixedClusterName.1 "aks" "c",
   (C10_prefixedClusterName.2 "aks" "xyz" "c" (by decide)).trans (by rfl)⟩

end EnvOp
